import Mathlib

/-!
Shallow embedding of the campaign-analysis report engine in
`src/leerdatos.py` (pandas script). Numeric cells are modelled as exact
rationals; a pandas NaN result (mean of an empty series, non-finite float
division) is modelled as `none : Option ℚ`. Printing and the `.round(2)`
display rounding, as well as the matplotlib rendering functions, are
presentation and are not part of the embedded computations.
-/

/-- One row of the campaign dataset, as loaded by `load_data` from
`datos_sinteticos.csv` and consumed by every analysis function. -/
structure Registro where
  campana_id : String
  plataforma : String
  tipo_campana : String
  audiencia_objetivo : String
  presupuesto_diario : ℚ
  impresiones : ℚ
  clicks : ℚ
  conversiones : ℚ
  costo_total : ℚ
  revenue_generado : ℚ
  ctr : ℚ
  conversion_rate : ℚ
  cpc : ℚ
  cpa : ℚ
  roas : ℚ
deriving DecidableEq

/-- pandas `Series.sum`: a left fold of addition starting at 0 (on an empty
series pandas returns 0). -/
def psum (l : List ℚ) : ℚ := l.foldl (· + ·) 0

/-- pandas `Series.mean`: sum divided by count. On an empty series pandas
returns NaN, modelled as `none`. -/
def pmean (l : List ℚ) : Option ℚ :=
  if l.length = 0 then none else some (psum l / (l.length : ℚ))

/-- The dict returned by `indicadores_clave` (lines 124-134 of
`leerdatos.py`). The five mean fields are `Option ℚ` because pandas means
are NaN on an empty dataframe; the three totals and the net profit are
plain sums/differences. -/
structure KPIs where
  ctr : Option ℚ
  conversion_rate : Option ℚ
  cpc : Option ℚ
  cpa : Option ℚ
  roas : Option ℚ
  presupuesto_total : ℚ
  costo_total : ℚ
  revenue_total : ℚ
  ganancia_neta : ℚ
deriving DecidableEq

/-- `indicadores_clave(df)` (lines 100-134): column means of ctr,
conversion_rate, cpc, cpa, roas; column sums of presupuesto_diario,
costo_total, revenue_generado; ganancia_neta = revenue_total - costo_total.
The `print` statements are omitted. -/
def indicadores_clave (df : List Registro) : KPIs :=
  { ctr := pmean (df.map Registro.ctr)
    conversion_rate := pmean (df.map Registro.conversion_rate)
    cpc := pmean (df.map Registro.cpc)
    cpa := pmean (df.map Registro.cpa)
    roas := pmean (df.map Registro.roas)
    presupuesto_total := psum (df.map Registro.presupuesto_diario)
    costo_total := psum (df.map Registro.costo_total)
    revenue_total := psum (df.map Registro.revenue_generado)
    ganancia_neta :=
      psum (df.map Registro.revenue_generado) - psum (df.map Registro.costo_total) }

/-- Float division as used at line 210 of `leerdatos.py`: for a nonzero
denominator this is the exact quotient; division by zero produces a
non-finite float (inf/NaN, no exception for numpy floats), modelled `none`. -/
def divFloat (a b : ℚ) : Option ℚ := if b = 0 then none else some (a / b)

/-- The margin computation inside `recomendaciones` (line 210):
`margen = (kpis['ganancia_neta'] / kpis['revenue_total']) * 100`. -/
def margen_de_ganancia (k : KPIs) : Option ℚ :=
  (divFloat k.ganancia_neta k.revenue_total).map (· * 100)

/-- The `kpis['roas'] > 5` flag at line 199 of `recomendaciones`.
A NaN mean (empty dataframe) compares False in Python, hence `none ↦ false`. -/
def roas_saludable (k : KPIs) : Bool :=
  match k.roas with
  | none => false
  | some v => decide (5 < v)

/-- The `kpis['conversion_rate'] > 3` flag at line 204 of `recomendaciones`. -/
def conversion_respetable (k : KPIs) : Bool :=
  match k.conversion_rate with
  | none => false
  | some v => decide (3 < v)

/-- Stable insertion of an element into a list: it goes in front of the
first element it compares true against. -/
def insertCmp {α : Type _} (cmp : α → α → Bool) (a : α) : List α → List α
  | [] => [a]
  | b :: l => if cmp a b then a :: b :: l else b :: insertCmp cmp a l

/-- Stable sort by a boolean comparison (insertion sort): elements that
compare equal keep their original relative order.  This models the stable
orderings pandas produces in `groupby` (keys ascending) and in
`nlargest`/`nsmallest` with the default `keep='first'`. -/
def sortCmp {α : Type _} (cmp : α → α → Bool) : List α → List α
  | [] => []
  | a :: l => insertCmp cmp a (sortCmp cmp l)

/-- Python `<` on strings: lexicographic comparison of the code-point
sequences (a proper prefix is smaller). -/
def charsLt : List Char → List Char → Bool
  | [], [] => false
  | [], _ :: _ => true
  | _ :: _, [] => false
  | a :: as, b :: bs =>
    if a.toNat < b.toNat then true
    else if b.toNat < a.toNat then false
    else charsLt as bs

/-- Python `<=` on strings: `a <= b` iff not `b < a`.  This is the order in
which pandas `groupby(sort=True)` lists string group keys. -/
def pyStrLe (a b : String) : Bool := !(charsLt b.data a.data)

/-- Distinct values of a list in order of first occurrence. -/
def firstOccurrences : List String → List String
  | [] => []
  | a :: l => a :: (firstOccurrences l).filter (fun b => decide (b ≠ a))

/-- The group keys of pandas `df.groupby(key)` with the default
`sort=True`: the distinct key values in ascending lexicographic order. -/
def groupKeys (key : Registro → String) (df : List Registro) : List String :=
  sortCmp pyStrLe (firstOccurrences (df.map key))

/-- Modelled from the spec's words, for comparison with `groupKeys`:
"Group iteration order is the first-occurrence order of each key value in
the dataset". -/
def specOrdenPrimeraAparicion (key : Registro → String) (df : List Registro) : List String :=
  firstOccurrences (df.map key)

/-- The rows of one group, in original dataset order. -/
def grupo (key : Registro → String) (df : List Registro) (k : String) : List Registro :=
  df.filter (fun r => decide (key r = k))

/-- The `'count'` reduction of `.agg` (every cell of `campana_id` is
present, so pandas count is the group size). -/
def groupCount (key : Registro → String) (df : List Registro) (k : String) : ℕ :=
  (grupo key df k).length

/-- The `'sum'` reduction of `.agg` over one group. -/
def groupSum (key : Registro → String) (metric : Registro → ℚ)
    (df : List Registro) (k : String) : ℚ :=
  psum ((grupo key df k).map metric)

/-- The `'mean'` reduction of `.agg` over one group. -/
def groupMean (key : Registro → String) (metric : Registro → ℚ)
    (df : List Registro) (k : String) : Option ℚ :=
  pmean ((grupo key df k).map metric)

/-- One row of the table printed by `analisis_por_plataforma`. -/
structure FilaPlataforma where
  plataforma : String
  campanas : ℕ
  presupuesto_total : ℚ
  impresiones : ℚ
  clicks : ℚ
  conversiones : ℚ
  costo_total : ℚ
  revenue : ℚ
  roas_promedio : Option ℚ

/-- `analisis_por_plataforma` (lines 50-67): groupby plataforma with count
of campana_id, sums of presupuesto_diario, impresiones, clicks,
conversiones, costo_total, revenue_generado and mean of roas; one table row
per group key.  The `.round(2)` and the printing are display only. -/
def analisis_por_plataforma (df : List Registro) : List FilaPlataforma :=
  (groupKeys Registro.plataforma df).map (fun k =>
    { plataforma := k
      campanas := groupCount Registro.plataforma df k
      presupuesto_total := groupSum Registro.plataforma Registro.presupuesto_diario df k
      impresiones := groupSum Registro.plataforma Registro.impresiones df k
      clicks := groupSum Registro.plataforma Registro.clicks df k
      conversiones := groupSum Registro.plataforma Registro.conversiones df k
      costo_total := groupSum Registro.plataforma Registro.costo_total df k
      revenue := groupSum Registro.plataforma Registro.revenue_generado df k
      roas_promedio := groupMean Registro.plataforma Registro.roas df k })

/-- One row of the table printed by `analisis_por_tipo_campana`. -/
structure FilaTipo where
  tipo_campana : String
  campanas : ℕ
  total_clicks : ℚ
  conversiones : ℚ
  conversion_rate_promedio : Option ℚ
  roas_promedio : Option ℚ

/-- `analisis_por_tipo_campana` (lines 69-83): groupby tipo_campana with
count of campana_id, sums of clicks and conversiones, means of
conversion_rate and roas. -/
def analisis_por_tipo_campana (df : List Registro) : List FilaTipo :=
  (groupKeys Registro.tipo_campana df).map (fun k =>
    { tipo_campana := k
      campanas := groupCount Registro.tipo_campana df k
      total_clicks := groupSum Registro.tipo_campana Registro.clicks df k
      conversiones := groupSum Registro.tipo_campana Registro.conversiones df k
      conversion_rate_promedio := groupMean Registro.tipo_campana Registro.conversion_rate df k
      roas_promedio := groupMean Registro.tipo_campana Registro.roas df k })

/-- One row of the table printed by `analisis_por_edad`. -/
structure FilaEdad where
  audiencia : String
  campanas : ℕ
  conversiones : ℚ
  costo : ℚ
  revenue : ℚ
  roas_promedio : Option ℚ

/-- `analisis_por_edad` (lines 85-98): groupby audiencia_objetivo with
count of campana_id, sums of conversiones, costo_total, revenue_generado
and mean of roas. -/
def analisis_por_edad (df : List Registro) : List FilaEdad :=
  (groupKeys Registro.audiencia_objetivo df).map (fun k =>
    { audiencia := k
      campanas := groupCount Registro.audiencia_objetivo df k
      conversiones := groupSum Registro.audiencia_objetivo Registro.conversiones df k
      costo := groupSum Registro.audiencia_objetivo Registro.costo_total df k
      revenue := groupSum Registro.audiencia_objetivo Registro.revenue_generado df k
      roas_promedio := groupMean Registro.audiencia_objetivo Registro.roas df k })

/-- pandas `DataFrame.nlargest(n, col)` with the default `keep='first'`:
empty for n ≤ 0 (pandas returns no rows), otherwise the first n rows of the
stable descending sort by the metric. -/
def nlargestBy (metric : Registro → ℚ) (n : ℤ) (df : List Registro) : List Registro :=
  if n ≤ 0 then [] else (sortCmp (fun a b => decide (metric b ≤ metric a)) df).take n.toNat

/-- pandas `DataFrame.nsmallest(n, col)` with the default `keep='first'`:
empty for n ≤ 0, otherwise the first n rows of the stable ascending sort. -/
def nsmallestBy (metric : Registro → ℚ) (n : ℤ) (df : List Registro) : List Registro :=
  if n ≤ 0 then [] else (sortCmp (fun a b => decide (metric a ≤ metric b)) df).take n.toNat

/-- `campanas_top(df, n)` (lines 136-142): the rows of
`df.nlargest(n, 'roas')`; the column selection for display is omitted. -/
def campanas_top (df : List Registro) (n : ℤ) : List Registro :=
  nlargestBy Registro.roas n df

/-- `campanas_bottom(df, n)` (lines 144-150): the rows of
`df.nsmallest(n, 'roas')`. -/
def campanas_bottom (df : List Registro) (n : ℤ) : List Registro :=
  nsmallestBy Registro.roas n df

/-- `df.isnull().sum()` for one column: the number of missing cells.  For
`validacion_datos` the dataframe is viewed as its list of columns, each
column a list of cells, a missing cell (NaN/None) being `none`. -/
def faltantesColumna (col : List (Option ℚ)) : ℕ := col.countP (fun c => c.isNone)

/-- `faltantes = df.isnull().sum()` (line 157): the per-column missing
counts, one entry per column. -/
def faltantes (cols : List (List (Option ℚ))) : List ℕ := cols.map faltantesColumna

/-- `validacion_datos` (lines 152-166): prints the per-column counts and
returns `faltantes.sum()`, the total number of missing cells.  It performs
no operation that can raise, on any dataframe. -/
def validacion_datos (cols : List (List (Option ℚ))) : ℕ := (faltantes cols).sum

/-- Setting the cells of a column at the given positions to missing: the
claim's "replacing k present values in one column with missing values". -/
def ponerFaltantes (col : List (Option ℚ)) (ps : List ℕ) : List (Option ℚ) :=
  ps.foldl (fun c i => c.set i none) col

/-- The dataframe with column `c` overwritten by the version of itself with
missing values injected at the positions `ps`. -/
def reemplazaColumna (cols : List (List (Option ℚ))) (c : ℕ) (ps : List ℕ) :
    List (List (Option ℚ)) :=
  cols.set c (ponerFaltantes (cols.getD c []) ps)

/-- Sample row used by concrete witnesses: platform "B" occurs first in the
sample dataset. -/
def regB : Registro :=
  ⟨"C001", "B", "Conversion", "18-24", 100, 1000, 50, 5, 80, 400, 5, 10, 8/5, 16, 5⟩

/-- Second sample row, platform "A". -/
def regA : Registro :=
  ⟨"C002", "A", "Alcance", "25-34", 200, 2000, 40, 4, 120, 360, 2, 10, 3, 30, 3⟩

/-- Sample two-row dataset (platform "B" before platform "A"). -/
def dfW : List Registro := [regB, regA]

/-- Sample dataframe (as a list of columns) with no missing cells, used by
the quality-check witness. -/
def colsW : List (List (Option ℚ)) := [[some 1, some 2], [some 3, some 4]]

theorem foldl_add_eq (l : List ℚ) : ∀ a : ℚ, l.foldl (· + ·) a = a + l.sum := by
  induction l with
  | nil => intro a; simp
  | cons x xs ih => intro a; simp only [List.foldl_cons, ih, List.sum_cons]; ring

theorem psum_eq_sum (l : List ℚ) : psum l = l.sum := by
  simpa [psum] using foldl_add_eq l 0

theorem mem_insertCmp {α : Type _} (cmp : α → α → Bool) (a x : α) (l : List α) :
    x ∈ insertCmp cmp a l ↔ x = a ∨ x ∈ l := by
  induction l with
  | nil => simp [insertCmp]
  | cons b l ih =>
    by_cases h : cmp a b = true
    · simp [insertCmp, h]
    · simp [insertCmp, h, ih]
      tauto

theorem perm_insertCmp {α : Type _} (cmp : α → α → Bool) (a : α) (l : List α) :
    List.Perm (insertCmp cmp a l) (a :: l) := by
  induction l with
  | nil => simp [insertCmp]
  | cons b l ih =>
    by_cases h : cmp a b = true
    · simp [insertCmp, h]
    · simp only [insertCmp, h, Bool.false_eq_true, if_false]
      exact (ih.cons b).trans (List.Perm.swap a b l)

theorem perm_sortCmp {α : Type _} (cmp : α → α → Bool) (l : List α) :
    List.Perm (sortCmp cmp l) l := by
  induction l with
  | nil => simp [sortCmp]
  | cons a l ih => exact (perm_insertCmp cmp a (sortCmp cmp l)).trans (ih.cons a)

theorem pairwise_insertCmp {α : Type _} (cmp : α → α → Bool)
    (htot : ∀ a b, cmp a b = true ∨ cmp b a = true)
    (htrans : ∀ a b c, cmp a b = true → cmp b c = true → cmp a c = true)
    (a : α) (l : List α) (hl : l.Pairwise (fun x y => cmp x y = true)) :
    (insertCmp cmp a l).Pairwise (fun x y => cmp x y = true) := by
  induction l with
  | nil => simp [insertCmp]
  | cons b l ih =>
    rw [List.pairwise_cons] at hl
    obtain ⟨hb, hl⟩ := hl
    by_cases h : cmp a b = true
    · simp only [insertCmp, h, if_true]
      rw [List.pairwise_cons]
      refine ⟨?_, List.pairwise_cons.mpr ⟨hb, hl⟩⟩
      intro y hy
      rcases List.mem_cons.mp hy with rfl | hy
      · exact h
      · exact htrans a b y h (hb y hy)
    · simp only [insertCmp, h, Bool.false_eq_true, if_false]
      rw [List.pairwise_cons]
      refine ⟨?_, ih hl⟩
      intro y hy
      rcases (mem_insertCmp cmp a y _).mp hy with hya | hy
      · rw [hya]
        rcases htot a b with h' | h'
        · exact absurd h' h
        · exact h'
      · exact hb y hy

theorem pairwise_sortCmp {α : Type _} (cmp : α → α → Bool)
    (htot : ∀ a b, cmp a b = true ∨ cmp b a = true)
    (htrans : ∀ a b c, cmp a b = true → cmp b c = true → cmp a c = true)
    (l : List α) : (sortCmp cmp l).Pairwise (fun x y => cmp x y = true) := by
  induction l with
  | nil => simp [sortCmp]
  | cons a l ih => exact pairwise_insertCmp cmp htot htrans a _ ih

theorem filter_insertCmp_pos {α : Type _} (cmp : α → α → Bool) (p : α → Bool)
    (a : α) (l : List α) (hpa : p a = true)
    (H : ∀ b, p b = true → cmp a b = true) :
    (insertCmp cmp a l).filter p = a :: l.filter p := by
  induction l with
  | nil => simp [insertCmp, hpa]
  | cons b l ih =>
    by_cases h : cmp a b = true
    · simp [insertCmp, h, List.filter_cons, hpa]
    · have hpb : p b = false := by
        cases hpb' : p b
        · rfl
        · exact absurd (H b hpb') h
      simp [insertCmp, h, List.filter_cons, hpb, ih]

theorem filter_insertCmp_neg {α : Type _} (cmp : α → α → Bool) (p : α → Bool)
    (a : α) (l : List α) (hpa : p a = false) :
    (insertCmp cmp a l).filter p = l.filter p := by
  induction l with
  | nil => simp [insertCmp, hpa]
  | cons b l ih =>
    by_cases h : cmp a b = true
    · simp [insertCmp, h, List.filter_cons, hpa]
    · simp [insertCmp, h, List.filter_cons, ih]

theorem filter_sortCmp {α : Type _} (cmp : α → α → Bool) (p : α → Bool)
    (H : ∀ a b, p a = true → p b = true → cmp a b = true) (l : List α) :
    (sortCmp cmp l).filter p = l.filter p := by
  induction l with
  | nil => rfl
  | cons a l ih =>
    have hs : sortCmp cmp (a :: l) = insertCmp cmp a (sortCmp cmp l) := rfl
    by_cases hpa : p a = true
    · rw [hs, filter_insertCmp_pos cmp p a _ hpa (fun b hb => H a b hpa hb), ih,
        List.filter_cons, if_pos hpa]
    · have hpa' : p a = false := by
        cases hq : p a
        · rfl
        · exact absurd hq hpa
      rw [hs, filter_insertCmp_neg cmp p a _ hpa', ih, List.filter_cons, hpa']
      simp

theorem mem_firstOccurrences (l : List String) (x : String) :
    x ∈ firstOccurrences l ↔ x ∈ l := by
  induction l with
  | nil => simp [firstOccurrences]
  | cons a l ih =>
    by_cases h : x = a
    · subst h
      simp [firstOccurrences]
    · simp [firstOccurrences, List.mem_filter, ih, h]

theorem nodup_firstOccurrences (l : List String) : (firstOccurrences l).Nodup := by
  induction l with
  | nil => simp [firstOccurrences]
  | cons a l ih =>
    rw [firstOccurrences, List.nodup_cons]
    constructor
    · simp [List.mem_filter]
    · exact List.Nodup.filter _ ih

theorem nodup_groupKeys (key : Registro → String) (df : List Registro) :
    (groupKeys key df).Nodup :=
  (perm_sortCmp _ _).nodup_iff.mpr (nodup_firstOccurrences _)

theorem mem_groupKeys (key : Registro → String) (df : List Registro) (x : String) :
    x ∈ groupKeys key df ↔ x ∈ df.map key := by
  rw [groupKeys, (perm_sortCmp _ _).mem_iff, mem_firstOccurrences]

theorem groupSum_cons (key : Registro → String) (metric : Registro → ℚ)
    (r : Registro) (df : List Registro) (k : String) :
    groupSum key metric (r :: df) k =
      (if key r = k then metric r else 0) + groupSum key metric df k := by
  by_cases h : key r = k
  · simp [groupSum, grupo, List.filter_cons, h, psum_eq_sum]
  · simp [groupSum, grupo, List.filter_cons, h, psum_eq_sum]

theorem sum_map_ite_zero (c : String) (v : ℚ) :
    ∀ ks : List String, ks.Nodup → c ∈ ks →
      (ks.map (fun k => if c = k then v else 0)).sum = v := by
  intro ks
  induction ks with
  | nil => simp
  | cons k ks ih =>
    intro hnd hc
    rw [List.nodup_cons] at hnd
    by_cases h : c = k
    · subst h
      have hz : (ks.map (fun j => if c = j then v else 0)).sum = 0 := by
        apply List.sum_eq_zero
        intro x hx
        obtain ⟨j, hj, hjx⟩ := List.mem_map.mp hx
        have : ¬ c = j := fun hcj => hnd.1 (hcj ▸ hj)
        simpa [this] using hjx.symm
      simp [hz]
    · rcases List.mem_cons.mp hc with rfl | hc'
      · exact absurd rfl h
      · simp [h, ih hnd.2 hc']

theorem sum_map_add_rat {α : Type _} (f g : α → ℚ) (l : List α) :
    (l.map (fun x => f x + g x)).sum = (l.map f).sum + (l.map g).sum := by
  induction l with
  | nil => simp
  | cons x l ih => simp [ih]; ring

theorem sum_groupSum (key : Registro → String) (metric : Registro → ℚ)
    (df : List Registro) (ks : List String) (hnd : ks.Nodup)
    (hcov : ∀ r ∈ df, key r ∈ ks) :
    (ks.map (groupSum key metric df)).sum = (df.map metric).sum := by
  induction df with
  | nil =>
    apply List.sum_eq_zero
    intro x hx
    obtain ⟨k, _, hk⟩ := List.mem_map.mp hx
    rw [← hk]
    simp [groupSum, grupo, psum]
  | cons r df ih =>
    have h1 : (ks.map (groupSum key metric (r :: df))).sum =
        (ks.map (fun k => if key r = k then metric r else 0)).sum +
        (ks.map (groupSum key metric df)).sum := by
      have : ks.map (groupSum key metric (r :: df)) =
          ks.map (fun k => (if key r = k then metric r else 0) + groupSum key metric df k) := by
        apply List.map_congr_left
        intro k _
        exact groupSum_cons key metric r df k
      rw [this, sum_map_add_rat]
    rw [h1, sum_map_ite_zero (key r) (metric r) ks hnd (hcov r (List.mem_cons_self r df)),
      ih (fun s hs => hcov s (List.mem_cons_of_mem r hs))]
    simp

theorem faltantesColumna_set_none (col : List (Option ℚ)) :
    ∀ i v, col.get? i = some (some v) →
      faltantesColumna (col.set i none) = faltantesColumna col + 1 := by
  induction col with
  | nil =>
    intro i v h
    simp at h
  | cons c col ih =>
    intro i v h
    cases i with
    | zero =>
      simp only [List.get?] at h
      rw [Option.some_inj] at h
      subst h
      simp [faltantesColumna, List.countP_cons]
    | succ i =>
      simp only [List.get?] at h
      have := ih i v h
      simp only [List.set, faltantesColumna, List.countP_cons] at this ⊢
      omega

theorem get?_set_of_ne {α : Type _} (col : List α) :
    ∀ i j (x : α), i ≠ j → (col.set i x).get? j = col.get? j := by
  induction col with
  | nil => intro i j x _; simp
  | cons c col ih =>
    intro i j x hij
    cases i with
    | zero =>
      cases j with
      | zero => exact absurd rfl hij
      | succ j => simp [List.set]
    | succ i =>
      cases j with
      | zero => simp [List.set]
      | succ j => simpa [List.set] using ih i j x (fun h => hij (by omega))

theorem faltantesColumna_ponerFaltantes (ps : List ℕ) :
    ∀ col : List (Option ℚ), ps.Nodup →
      (∀ i ∈ ps, ∃ v, col.get? i = some (some v)) →
      faltantesColumna (ponerFaltantes col ps) = faltantesColumna col + ps.length := by
  induction ps with
  | nil => intro col _ _; simp [ponerFaltantes]
  | cons i ps ih =>
    intro col hnd hpres
    rw [List.nodup_cons] at hnd
    obtain ⟨v, hv⟩ := hpres i (List.mem_cons_self i ps)
    have hfold : ponerFaltantes col (i :: ps) = ponerFaltantes (col.set i none) ps := rfl
    have hpres' : ∀ j ∈ ps, ∃ w, (col.set i none).get? j = some (some w) := by
      intro j hj
      rw [get?_set_of_ne col i j none (fun h => hnd.1 (h ▸ hj))]
      exact hpres j (List.mem_cons_of_mem i hj)
    rw [hfold, ih (col.set i none) hnd.2 hpres',
      faltantesColumna_set_none col i v hv]
    simp
    omega

theorem get?_set_self {α : Type _} (col : List α) :
    ∀ c (x : α), c < col.length → (col.set c x).get? c = some x := by
  induction col with
  | nil => intro c x h; simp at h
  | cons a col ih =>
    intro c x h
    cases c with
    | zero => simp [List.set]
    | succ c => simpa [List.set] using ih c x (by simpa using h)

theorem sum_map_set_nat {α : Type _} (f : α → ℕ) (d : α) (cols : List α) :
    ∀ c x, c < cols.length →
      ((cols.set c x).map f).sum + f (cols.getD c d) = (cols.map f).sum + f x := by
  induction cols with
  | nil => intro c x h; simp at h
  | cons a cols ih =>
    intro c x h
    cases c with
    | zero => simp [List.set, List.getD]; omega
    | succ c =>
      have := ih c x (by simpa using h)
      simp only [List.set, List.map_cons, List.sum_cons, List.getD_cons_succ]
      omega

theorem charsLt_trans : ∀ as bs cs : List Char,
    charsLt as bs = true → charsLt bs cs = true → charsLt as cs = true := by
  intro as
  induction as with
  | nil =>
    intro bs cs h1 h2
    cases bs with
    | nil => simp [charsLt] at h1
    | cons b bs =>
      cases cs with
      | nil => simp [charsLt] at h2
      | cons c cs => simp [charsLt]
  | cons a as ih =>
    intro bs cs h1 h2
    cases bs with
    | nil => simp [charsLt] at h1
    | cons b bs =>
      cases cs with
      | nil => simp [charsLt] at h2
      | cons c cs =>
        simp only [charsLt] at h1 h2 ⊢
        by_cases hab : a.toNat < b.toNat
        · by_cases hbc : b.toNat < c.toNat
          · simp [Nat.lt_trans hab hbc]
          · rw [if_neg hbc] at h2
            by_cases hcb : c.toNat < b.toNat
            · simp [hcb] at h2
            · have : b.toNat = c.toNat := by omega
              simp [this ▸ hab]
        · rw [if_neg hab] at h1
          by_cases hba : b.toNat < a.toNat
          · simp [hba] at h1
          · rw [if_neg hba] at h1
            have heq1 : a.toNat = b.toNat := by omega
            by_cases hbc : b.toNat < c.toNat
            · simp [heq1 ▸ hbc]
            · rw [if_neg hbc] at h2
              by_cases hcb : c.toNat < b.toNat
              · simp [hcb] at h2
              · rw [if_neg hcb] at h2
                have hac : ¬ a.toNat < c.toNat := by omega
                have hca : ¬ c.toNat < a.toNat := by omega
                rw [if_neg hac, if_neg hca]
                exact ih bs cs h1 h2

theorem charsLt_asymm : ∀ as bs : List Char,
    charsLt as bs = true → charsLt bs as = false := by
  intro as
  induction as with
  | nil =>
    intro bs h
    cases bs with
    | nil => simp [charsLt] at h
    | cons b bs => simp [charsLt]
  | cons a as ih =>
    intro bs h
    cases bs with
    | nil => simp [charsLt] at h
    | cons b bs =>
      simp only [charsLt] at h ⊢
      by_cases hab : a.toNat < b.toNat
      · have hba : ¬ b.toNat < a.toNat := by omega
        rw [if_neg hba, if_pos hab]
      · rw [if_neg hab] at h
        by_cases hba : b.toNat < a.toNat
        · simp [hba] at h
        · rw [if_neg hba] at h
          rw [if_neg hba, if_neg hab]
          exact ih bs h

theorem charsLt_irrefl (as : List Char) : charsLt as as = false := by
  cases h : charsLt as as
  · rfl
  · have := charsLt_asymm as as h
    rw [h] at this
    exact this

theorem charsLt_connex : ∀ as bs : List Char,
    charsLt as bs = true ∨ charsLt bs as = true ∨ as = bs := by
  intro as
  induction as with
  | nil =>
    intro bs
    cases bs with
    | nil => right; right; rfl
    | cons b bs => left; simp [charsLt]
  | cons a as ih =>
    intro bs
    cases bs with
    | nil => right; left; simp [charsLt]
    | cons b bs =>
      by_cases hab : a.toNat < b.toNat
      · left; simp [charsLt, hab]
      · by_cases hba : b.toNat < a.toNat
        · right; left; simp [charsLt, hba]
        · have hnat : a.toNat = b.toNat := by omega
          have hch : a = b := Char.ext (UInt32.ext hnat)
          rcases ih bs with h | h | h
          · left; simp [charsLt, hab, hba, h]
          · right; left; simp [charsLt, hab, hba, h]
          · right; right; rw [hch, h]

theorem pyStrLe_total (a b : String) : pyStrLe a b = true ∨ pyStrLe b a = true := by
  rcases charsLt_connex a.data b.data with h | h | h
  · left; simp [pyStrLe, charsLt_asymm _ _ h]
  · right; simp [pyStrLe, charsLt_asymm _ _ h]
  · left; simp [pyStrLe, h, charsLt_irrefl]

theorem pyStrLe_trans (a b c : String) :
    pyStrLe a b = true → pyStrLe b c = true → pyStrLe a c = true := by
  intro h1 h2
  simp only [pyStrLe, Bool.not_eq_true'] at h1 h2 ⊢
  cases hca : charsLt c.data a.data
  · rfl
  · exfalso
    rcases charsLt_connex b.data c.data with h | h | h
    · rw [charsLt_trans _ _ _ h hca] at h1
      exact Bool.noConfusion h1
    · rw [h] at h2
      exact Bool.noConfusion h2
    · rw [h, hca] at h1
      exact Bool.noConfusion h1

theorem take_sortCmp_spec {α : Type _} (cmp : α → α → Bool)
    (htot : ∀ a b, cmp a b = true ∨ cmp b a = true)
    (htrans : ∀ a b c, cmp a b = true → cmp b c = true → cmp a c = true)
    (m : ℕ) (l : List α) :
    ((sortCmp cmp l).take m).length = min m l.length ∧
    ((sortCmp cmp l).take m).Pairwise (fun a b => cmp a b = true) ∧
    ∀ p : α → Bool, (∀ a b, p a = true → p b = true → cmp a b = true) →
      ∃ resto, ((sortCmp cmp l).take m).filter p ++ resto = l.filter p := by
  refine ⟨?_, ?_, ?_⟩
  · rw [List.length_take, (perm_sortCmp cmp l).length_eq]
  · exact List.Pairwise.sublist (List.take_sublist _ _) (pairwise_sortCmp cmp htot htrans l)
  · intro p hp
    refine ⟨((sortCmp cmp l).drop m).filter p, ?_⟩
    rw [← List.filter_append, List.take_append_drop, filter_sortCmp cmp p hp l]

/-- C1: on a non-empty dataset `indicadores_clave` returns the unweighted
arithmetic means of the ctr, conversion_rate, cpc, cpa and roas columns, the
sums of presupuesto_diario, costo_total and revenue_generado, and
ganancia_neta = revenue_total - costo_total. -/
theorem indicadores_clave_medias_y_sumas (df : List Registro) (h : df ≠ []) :
    (indicadores_clave df).ctr = some ((df.map Registro.ctr).sum / (df.length : ℚ)) ∧
    (indicadores_clave df).conversion_rate =
      some ((df.map Registro.conversion_rate).sum / (df.length : ℚ)) ∧
    (indicadores_clave df).cpc = some ((df.map Registro.cpc).sum / (df.length : ℚ)) ∧
    (indicadores_clave df).cpa = some ((df.map Registro.cpa).sum / (df.length : ℚ)) ∧
    (indicadores_clave df).roas = some ((df.map Registro.roas).sum / (df.length : ℚ)) ∧
    (indicadores_clave df).presupuesto_total = (df.map Registro.presupuesto_diario).sum ∧
    (indicadores_clave df).costo_total = (df.map Registro.costo_total).sum ∧
    (indicadores_clave df).revenue_total = (df.map Registro.revenue_generado).sum ∧
    (indicadores_clave df).ganancia_neta =
      (indicadores_clave df).revenue_total - (indicadores_clave df).costo_total := by
  have hlen : df.length ≠ 0 := by simpa [List.length_eq_zero] using h
  refine ⟨?_, ?_, ?_, ?_, ?_, ?_, ?_, ?_, ?_⟩ <;>
    simp [indicadores_clave, pmean, psum_eq_sum, hlen]

/-- C1 witness: the theorem instantiated at the concrete two-row dataset. -/
theorem indicadores_clave_medias_y_sumas_witness :
    dfW ≠ [] ∧
    ((indicadores_clave dfW).ctr = some ((dfW.map Registro.ctr).sum / (dfW.length : ℚ)) ∧
    (indicadores_clave dfW).conversion_rate =
      some ((dfW.map Registro.conversion_rate).sum / (dfW.length : ℚ)) ∧
    (indicadores_clave dfW).cpc = some ((dfW.map Registro.cpc).sum / (dfW.length : ℚ)) ∧
    (indicadores_clave dfW).cpa = some ((dfW.map Registro.cpa).sum / (dfW.length : ℚ)) ∧
    (indicadores_clave dfW).roas = some ((dfW.map Registro.roas).sum / (dfW.length : ℚ)) ∧
    (indicadores_clave dfW).presupuesto_total = (dfW.map Registro.presupuesto_diario).sum ∧
    (indicadores_clave dfW).costo_total = (dfW.map Registro.costo_total).sum ∧
    (indicadores_clave dfW).revenue_total = (dfW.map Registro.revenue_generado).sum ∧
    (indicadores_clave dfW).ganancia_neta =
      (indicadores_clave dfW).revenue_total - (indicadores_clave dfW).costo_total) :=
  ⟨by decide, indicadores_clave_medias_y_sumas dfW (by decide)⟩

/-- C2 counterexample: for the dataset whose platforms appear in the order
"B", "A", the grouped platform table lists its groups as ["A", "B"] (pandas
groupby defaults to sort=True), not the first-occurrence order ["B", "A"]
stated by the claim. -/
theorem groupby_no_primera_aparicion :
    (analisis_por_plataforma dfW).map FilaPlataforma.plataforma = ["A", "B"] ∧
    specOrdenPrimeraAparicion Registro.plataforma dfW = ["B", "A"] ∧
    (analisis_por_plataforma dfW).map FilaPlataforma.plataforma ≠
      specOrdenPrimeraAparicion Registro.plataforma dfW := by
  refine ⟨?_, ?_, ?_⟩ <;> decide

/-- C2 amended: each grouped analysis lists its groups in ascending
lexicographic (Python string) order of the key values - the sorted distinct
keys, without duplicates, covering exactly the key values present - because
pandas groupby defaults to sort=True; first-occurrence order is not used. -/
theorem groupby_orden_ascendente (df : List Registro) :
    ((analisis_por_plataforma df).map FilaPlataforma.plataforma =
        groupKeys Registro.plataforma df ∧
      (analisis_por_tipo_campana df).map FilaTipo.tipo_campana =
        groupKeys Registro.tipo_campana df ∧
      (analisis_por_edad df).map FilaEdad.audiencia =
        groupKeys Registro.audiencia_objetivo df) ∧
    (∀ key : Registro → String,
      (groupKeys key df).Pairwise (fun a b => pyStrLe a b = true) ∧
      (groupKeys key df).Nodup ∧
      (∀ x, x ∈ groupKeys key df ↔ x ∈ df.map key)) := by
  constructor
  · refine ⟨?_, ?_, ?_⟩
    · rw [analisis_por_plataforma, List.map_map]
      exact List.map_id _
    · rw [analisis_por_tipo_campana, List.map_map]
      exact List.map_id _
    · rw [analisis_por_edad, List.map_map]
      exact List.map_id _
  · intro key
    exact ⟨pairwise_sortCmp pyStrLe pyStrLe_total pyStrLe_trans _,
      nodup_groupKeys key df, mem_groupKeys key df⟩

/-- C3 counterexample: on the empty dataset `indicadores_clave` raises
nothing; it returns a KPI record (NaN mean, zero net profit), contradicting
the claim that it fails with EmptyDatasetError instead of returning one. -/
theorem indicadores_clave_vacio_devuelve_registro :
    (indicadores_clave ([] : List Registro)).ctr = none ∧
    (indicadores_clave ([] : List Registro)).ganancia_neta = 0 := by
  constructor <;> norm_num [indicadores_clave, pmean, psum]

/-- C3 amended: on a dataset with zero records `indicadores_clave` does not
fail; it returns the KPI record whose five means are NaN (`none`) and whose
totals and net profit are 0 (pandas: mean of empty is NaN, sum of empty 0). -/
theorem indicadores_clave_vacio :
    indicadores_clave ([] : List Registro) =
      { ctr := none, conversion_rate := none, cpc := none, cpa := none, roas := none,
        presupuesto_total := 0, costo_total := 0, revenue_total := 0, ganancia_neta := 0 } := by
  norm_num [indicadores_clave, pmean, psum, KPIs.mk.injEq]

/-- C4: the margin computation in `recomendaciones` is undefined (a
non-finite float, reported yet never an exception) exactly when
revenue_total is 0, and otherwise equals ganancia_neta / revenue_total * 100. -/
theorem margen_indefinido_sii_revenue_cero (k : KPIs) :
    (k.revenue_total = 0 → margen_de_ganancia k = none) ∧
    (k.revenue_total ≠ 0 →
      margen_de_ganancia k = some (k.ganancia_neta / k.revenue_total * 100)) := by
  constructor
  · intro h; simp [margen_de_ganancia, divFloat, h]
  · intro h; simp [margen_de_ganancia, divFloat, h]

/-- C4 witness: zero revenue gives an undefined margin; the spec's example
(revenue 1000, net profit 400) gives margin 40%. -/
theorem margen_indefinido_sii_revenue_cero_witness :
    margen_de_ganancia ⟨none, none, none, none, none, 0, 0, 0, 0⟩ = none ∧
    margen_de_ganancia ⟨none, none, none, none, none, 0, 600, 1000, 400⟩ = some 40 := by
  constructor
  · exact (margen_indefinido_sii_revenue_cero _).1 rfl
  · rw [(margen_indefinido_sii_revenue_cero ⟨none, none, none, none, none,
      0, 600, 1000, 400⟩).2 (by decide)]
    norm_num

/-- C5: `campanas_top`/`campanas_bottom` (pandas nlargest/nsmallest with
keep='first', over any metric column) return min(n, len(df)) rows, sorted by
the metric descending resp. ascending, ties keeping original dataset order
(the selected rows of any fixed metric value are an initial run of that
value's rows in dataset order), and n ≤ 0 yields the empty sequence. -/
theorem campanas_top_bottom_spec (metric : Registro → ℚ) (n : ℤ) (df : List Registro) :
    (nlargestBy metric n df).length = min n.toNat df.length ∧
    (nsmallestBy metric n df).length = min n.toNat df.length ∧
    (nlargestBy metric n df).Pairwise (fun a b => metric b ≤ metric a) ∧
    (nsmallestBy metric n df).Pairwise (fun a b => metric a ≤ metric b) ∧
    (∀ c : ℚ, ∃ resto,
      (nlargestBy metric n df).filter (fun r => decide (metric r = c)) ++ resto =
        df.filter (fun r => decide (metric r = c))) ∧
    (∀ c : ℚ, ∃ resto,
      (nsmallestBy metric n df).filter (fun r => decide (metric r = c)) ++ resto =
        df.filter (fun r => decide (metric r = c))) ∧
    (n ≤ 0 → nlargestBy metric n df = [] ∧ nsmallestBy metric n df = []) ∧
    campanas_top df n = nlargestBy Registro.roas n df ∧
    campanas_bottom df n = nsmallestBy Registro.roas n df := by
  have htotD : ∀ a b : Registro,
      decide (metric b ≤ metric a) = true ∨ decide (metric a ≤ metric b) = true := by
    intro a b
    rcases le_total (metric b) (metric a) with h | h
    · exact Or.inl (decide_eq_true h)
    · exact Or.inr (decide_eq_true h)
  have htransD : ∀ a b c : Registro, decide (metric b ≤ metric a) = true →
      decide (metric c ≤ metric b) = true → decide (metric c ≤ metric a) = true := by
    intro a b c h1 h2
    exact decide_eq_true (le_trans (of_decide_eq_true h2) (of_decide_eq_true h1))
  have htotA : ∀ a b : Registro,
      decide (metric a ≤ metric b) = true ∨ decide (metric b ≤ metric a) = true := by
    intro a b
    rcases le_total (metric a) (metric b) with h | h
    · exact Or.inl (decide_eq_true h)
    · exact Or.inr (decide_eq_true h)
  have htransA : ∀ a b c : Registro, decide (metric a ≤ metric b) = true →
      decide (metric b ≤ metric c) = true → decide (metric a ≤ metric c) = true := by
    intro a b c h1 h2
    exact decide_eq_true (le_trans (of_decide_eq_true h1) (of_decide_eq_true h2))
  by_cases hn : n ≤ 0
  · have e1 : nlargestBy metric n df = [] := by simp [nlargestBy, hn]
    have e2 : nsmallestBy metric n df = [] := by simp [nsmallestBy, hn]
    have hnt : n.toNat = 0 := Int.toNat_of_nonpos hn
    refine ⟨?_, ?_, ?_, ?_, ?_, ?_, ?_, rfl, rfl⟩
    · simp [e1, hnt]
    · simp [e2, hnt]
    · simp [e1]
    · simp [e2]
    · intro c; exact ⟨df.filter (fun r => decide (metric r = c)), by simp [e1]⟩
    · intro c; exact ⟨df.filter (fun r => decide (metric r = c)), by simp [e2]⟩
    · intro _; exact ⟨e1, e2⟩
  · have e1 : nlargestBy metric n df =
        (sortCmp (fun a b => decide (metric b ≤ metric a)) df).take n.toNat := by
      simp [nlargestBy, hn]
    have e2 : nsmallestBy metric n df =
        (sortCmp (fun a b => decide (metric a ≤ metric b)) df).take n.toNat := by
      simp [nsmallestBy, hn]
    have hD := take_sortCmp_spec (fun a b => decide (metric b ≤ metric a))
      htotD htransD n.toNat df
    have hA := take_sortCmp_spec (fun a b => decide (metric a ≤ metric b))
      htotA htransA n.toNat df
    refine ⟨?_, ?_, ?_, ?_, ?_, ?_, ?_, rfl, rfl⟩
    · rw [e1]; exact hD.1
    · rw [e2]; exact hA.1
    · rw [e1]; exact hD.2.1.imp (fun h => of_decide_eq_true h)
    · rw [e2]; exact hA.2.1.imp (fun h => of_decide_eq_true h)
    · intro c
      have hp : ∀ a b : Registro, decide (metric a = c) = true →
          decide (metric b = c) = true → decide (metric b ≤ metric a) = true := by
        intro a b ha hb
        have ha' := of_decide_eq_true ha
        have hb' := of_decide_eq_true hb
        exact decide_eq_true (le_of_eq (hb'.trans ha'.symm))
      obtain ⟨resto, hr⟩ := hD.2.2 (fun r => decide (metric r = c)) hp
      exact ⟨resto, by rw [e1]; exact hr⟩
    · intro c
      have hp : ∀ a b : Registro, decide (metric a = c) = true →
          decide (metric b = c) = true → decide (metric a ≤ metric b) = true := by
        intro a b ha hb
        have ha' := of_decide_eq_true ha
        have hb' := of_decide_eq_true hb
        exact decide_eq_true (le_of_eq (ha'.trans hb'.symm))
      obtain ⟨resto, hr⟩ := hA.2.2 (fun r => decide (metric r = c)) hp
      exact ⟨resto, by rw [e2]; exact hr⟩
    · intro hcon; exact absurd hcon hn

/-- C5 witness: the theorem applied at roas with n = -1 (empty result) and
n = 2 (length min(2, 2)). -/
theorem campanas_top_bottom_spec_witness :
    ((-1 : ℤ) ≤ 0 ∧ nlargestBy Registro.roas (-1) dfW = [] ∧
      nsmallestBy Registro.roas (-1) dfW = []) ∧
    (nlargestBy Registro.roas 2 dfW).length = min (2 : ℤ).toNat dfW.length := by
  constructor
  · exact ⟨by decide,
      (campanas_top_bottom_spec Registro.roas (-1) dfW).2.2.2.2.2.2.1 (by decide)⟩
  · exact (campanas_top_bottom_spec Registro.roas 2 dfW).1

/-- C6: conservation law - for every grouping key and every metric
aggregated with the sum reduction, the per-group sums listed by the
grouped analysis add up to the metric's sum over the entire dataset. -/
theorem conservacion_suma_por_grupo (key : Registro → String)
    (metric : Registro → ℚ) (df : List Registro) (h : df ≠ []) :
    ((groupKeys key df).map (groupSum key metric df)).sum = (df.map metric).sum := by
  refine sum_groupSum key metric df _ (nodup_groupKeys key df) ?_
  intro r hr
  exact (mem_groupKeys key df (key r)).mpr (List.mem_map_of_mem key hr)

/-- C6 witness: the conservation law at the concrete dataset, for the
costo_total sums of the platform table. -/
theorem conservacion_suma_por_grupo_witness :
    dfW ≠ [] ∧
    ((groupKeys Registro.plataforma dfW).map
        (groupSum Registro.plataforma Registro.costo_total dfW)).sum =
      (dfW.map Registro.costo_total).sum :=
  ⟨by decide,
    conservacion_suma_por_grupo Registro.plataforma Registro.costo_total dfW (by decide)⟩

/-- C7: on a one-record dataset the five KPI means are that record's own
ratio values unchanged. -/
theorem indicadores_clave_un_registro (r : Registro) :
    (indicadores_clave [r]).ctr = some r.ctr ∧
    (indicadores_clave [r]).conversion_rate = some r.conversion_rate ∧
    (indicadores_clave [r]).cpc = some r.cpc ∧
    (indicadores_clave [r]).cpa = some r.cpa ∧
    (indicadores_clave [r]).roas = some r.roas := by
  refine ⟨?_, ?_, ?_, ?_, ?_⟩ <;> simp [indicadores_clave, pmean, psum]

/-- C8: both recommendation flags are strict comparisons: the healthy-ROAS
flag holds iff the mean ROAS is strictly above 5 (exactly 5 gives False) and
the respectable-conversion-rate flag holds iff the mean is strictly above 3
(exactly 3 gives False). -/
theorem umbrales_estrictos (k : KPIs) (v w : ℚ) :
    (roas_saludable { k with roas := some v } = true ↔ 5 < v) ∧
    roas_saludable { k with roas := some 5 } = false ∧
    (conversion_respetable { k with conversion_rate := some w } = true ↔ 3 < w) ∧
    conversion_respetable { k with conversion_rate := some 3 } = false := by
  refine ⟨?_, ?_, ?_, ?_⟩ <;> simp [roas_saludable, conversion_respetable]

/-- C9: `validacion_datos` (a total function - it cannot fail) returns 0
exactly when no cell of any column is missing; injecting missing values at k
distinct previously-present positions of one column raises that column's
reported count by exactly k (other columns unchanged) and the total by k. -/
theorem validacion_datos_spec (cols : List (List (Option ℚ))) :
    (validacion_datos cols = 0 ↔ ∀ col ∈ cols, ∀ cell ∈ col, cell ≠ none) ∧
    (∀ c (ps : List ℕ), c < cols.length → ps.Nodup →
      (∀ i ∈ ps, ∃ v, (cols.getD c []).get? i = some (some v)) →
      faltantes (reemplazaColumna cols c ps) =
        (faltantes cols).set c (faltantesColumna (cols.getD c []) + ps.length) ∧
      validacion_datos (reemplazaColumna cols c ps) = validacion_datos cols + ps.length) := by
  constructor
  · simp [validacion_datos, faltantes, List.sum_eq_zero_iff, faltantesColumna,
      List.countP_eq_zero, Option.isNone_iff_eq_none]
  · intro c ps hc hnd hpres
    have hcount := faltantesColumna_ponerFaltantes ps (cols.getD c []) hnd hpres
    constructor
    · simp only [reemplazaColumna, faltantes, List.map_set, hcount]
    · have hsum := sum_map_set_nat faltantesColumna [] cols c
        (ponerFaltantes (cols.getD c []) ps) hc
      simp only [validacion_datos, faltantes, reemplazaColumna]
      omega

/-- C9 witness: injecting one missing value into the first column of the
concrete all-present dataframe raises the total from 0 to 1. -/
theorem validacion_datos_spec_witness :
    (0 < colsW.length ∧ ([0] : List ℕ).Nodup) ∧
    validacion_datos (reemplazaColumna colsW 0 [0]) = validacion_datos colsW + 1 := by
  refine ⟨⟨by decide, by decide⟩, ?_⟩
  have h := (validacion_datos_spec colsW).2 0 [0] (by decide) (by decide)
    (by
      intro i hi
      have hi0 : i = 0 := by simpa using hi
      subst hi0
      exact ⟨1, rfl⟩)
  simpa using h.2
